import Mathlib

/-!
Shallow embedding of `convert_nndc71.py`: a script that downloads
ENDF/B-VII.1 nuclear-data archives from NNDC, verifies MD5 checksums,
extracts the archives, patches two thermal-scattering ACE files, converts
the extracted records to an HDF5 library, and writes a
`cross_sections.xml` manifest.

The external collaborators (the `openmc.data` parsers and HDF5 export, the
`download` helper, the archive libraries and `hashlib.md5`) are treated as
black boxes: they enter the model as function parameters.  The filesystem
is modelled as an association list from path strings to content strings in
which a write shadows earlier entries at the same path.
-/

namespace ConvertNNDC

/-! ## Generic helpers: filesystem, string operations, sorting -/

/-- Filesystem model: newest write first; a read takes the first match, so
writing a path shadows (overwrites) any earlier content at that path. -/
abbrev FS := List (String × String)

/-- Read a file: first entry whose path matches. -/
def fsRead : FS → String → Option String
  | [], _ => none
  | (q, v) :: rest, p => if q = p then some v else fsRead rest p

/-- Write a file (mode `w` semantics: an existing file at the path is
overwritten, since reads see the newest entry first). -/
def fsWrite (fs : FS) (p v : String) : FS := (p, v) :: fs

/-- Model of Python's `str.endswith`, via the character lists. -/
def strEndsWith (s suf : String) : Bool := suf.toList.isSuffixOf s.toList

/-- Lexicographic (code-point) order on character lists, as used by
Python's `sorted` on strings and paths. -/
def lexLe : List Char → List Char → Bool
  | [], _ => true
  | _ :: _, [] => false
  | a :: as, b :: bs =>
    if a.toNat < b.toNat then true
    else if b.toNat < a.toNat then false
    else lexLe as bs

/-- Lexicographic order on strings. -/
def strLe (a b : String) : Bool := lexLe a.toList b.toList

/-- Insert a string into a sorted list of strings, keeping it sorted. -/
def insertSorted (s : String) : List String → List String
  | [] => [s]
  | t :: ts => if strLe s t then s :: t :: ts else t :: insertSorted s ts

/-- Model of Python's `sorted` on a list of file names (insertion sort:
a sorted permutation of the input under the lexicographic order). -/
def sortStrings : List String → List String
  | [] => []
  | s :: ss => insertSorted s (sortStrings ss)

/-- Model of Python's `text.replace(old, new, 1)` on character lists:
replace the leftmost occurrence of `old` by `new` and keep the rest of
the text unchanged. -/
def listReplaceFirst (old new : List Char) : List Char → List Char
  | [] => if old.isEmpty then new else []
  | c :: rest =>
    if old.isPrefixOf (c :: rest) then new ++ (c :: rest).drop old.length
    else c :: listReplaceFirst old new rest

/-- Model of Python's `text.replace(old, new, 1)` on strings. -/
def strReplaceFirst (s old new : String) : String :=
  String.mk (listReplaceFirst old.toList new.toList s.toList)

/-! ## Configuration table (lines 56-88 of the source) -/

/-- `ace_files_dir = Path('-'.join([library_name, release, 'ace']))`. -/
def aceFilesDir : String := "nndc-b7.1-ace"

/-- `endf_files_dir = Path('-'.join([library_name, release, 'endf']))`. -/
def endfFilesDir : String := "nndc-b7.1-endf"

/-- Per-particle entry of the `release_details['b7.1']` table.  The glob
fields (`ace_files`, `sab_files`, `photo_files`, `atom_files`) are lazy
filesystem queries in the source; their results enter the conversion
model as explicit lists in `ConvertEnv`. -/
structure ParticleDetails where
  base_url : String
  compressed_files : List String
  checksums : Option (List String)
  file_type : String
deriving DecidableEq

/-- `release_details['b7.1']['neutron']` (the only entry that declares
checksums). -/
def neutronDetails : ParticleDetails where
  base_url := "http://www.nndc.bnl.gov/endf/b7.1/aceFiles/"
  compressed_files := ["ENDF-B-VII.1-neutron-293.6K.tar.gz", "ENDF-B-VII.1-tsl.tar.gz"]
  checksums := some ["9729a17eb62b75f285d8a7628ace1449", "e17d827c92940a30f22f096d910ea186"]
  file_type := "ace"

/-- `release_details['b7.1']['photon']` (no `checksums` key). -/
def photonDetails : ParticleDetails where
  base_url := "http://www.nndc.bnl.gov/endf/b7.1/zips/"
  compressed_files := ["ENDF-B-VII.1-photoat.zip", "ENDF-B-VII.1-atomic_relax.zip"]
  checksums := none
  file_type := "endf"

/-- The dictionary `release_details['b7.1']` as an association list; its
keys are exactly `"neutron"` and `"photon"`. -/
def releaseDetails : List (String × ParticleDetails) :=
  [("neutron", neutronDetails), ("photon", photonDetails)]

/-- `release_details['b7.1'].keys()`. -/
def releaseKeys : List String := releaseDetails.map Prod.fst

/-- The particle choices admitted by `argparse` (`choices=['neutron', 'photon']`). -/
inductive Particle where
  | neutron
  | photon
deriving DecidableEq

/-- Look up `release_details['b7.1'][particle]`. -/
def details : Particle → ParticleDetails
  | Particle.neutron => neutronDetails
  | Particle.photon => photonDetails

/-- Parsed command line (lines 37-54 of the source). -/
structure Args where
  destination : String
  download : Bool
  extract : Bool
  libver : String
  particles : List Particle
deriving DecidableEq

/-! ## Checksum verification stage (lines 118-129)

The source guards the body with
`if 'checksums' in release_details[release].keys():` — a membership test
against the **top-level** keys `['neutron', 'photon']`, not against the
per-particle sub-dictionary.  If the guard were ever true, the body would
next evaluate `release_details[release]['compressed_files']`, again a
missing top-level key, i.e. a `KeyError`. -/

/-- The verification stage.  `md5` maps an archive file name to the hex
digest of its on-disk contents.  The returned list records every
(computed digest, expected digest) comparison the stage actually
performs; `Except.error` models an uncaught exception. -/
def verifyStage (args : Args) (md5 : String → String) :
    Except String (List (String × String)) :=
  if args.download then
    args.particles.foldlM
      (fun acc _particle =>
        if "checksums" ∈ releaseKeys then
          Except.error "KeyError: compressed_files"
        else
          Except.ok acc)
      []
  else
    Except.ok []

/-! ## Extraction stage (lines 134-151) -/

/-- Which extraction routine is invoked: `zipfile.ZipFile` or
`tarfile.open` (mode `r`, which reads the gzip-compressed tarballs this
script downloads). -/
inductive ExtractMethod where
  | zip
  | targz
deriving DecidableEq

/-- `if f.endswith('.zip'): ... else: ...` — dispatch on the file name
extension only. -/
def extractMethod (f : String) : ExtractMethod :=
  if strEndsWith f ".zip" then ExtractMethod.zip else ExtractMethod.targz

/-- Target directory chosen from the particle's declared `file_type`
(`'ace'` → `ace_files_dir`, `'endf'` → `endf_files_dir`; the two
configured particles carry exactly these two types). -/
def extractionDir (p : Particle) : String :=
  if (details p).file_type = "ace" then aceFilesDir else endfFilesDir

/-- One archive extraction performed by the stage: which archive, which
routine, into which directory, producing which member files
(`extractall` preserves each member's internal path under the target
directory). -/
structure ExtractAction where
  particle : Particle
  archive : String
  method : ExtractMethod
  dir : String
  outputs : List String
deriving DecidableEq

/-- The extraction stage.  `members` maps an archive file name to its
member paths. -/
def extractActions (args : Args) (members : String → List String) :
    List ExtractAction :=
  if args.extract then
    args.particles.flatMap (fun p =>
      (details p).compressed_files.map (fun f =>
        { particle := p
          archive := f
          method := extractMethod f
          dir := extractionDir p
          outputs := (members f).map (fun m => extractionDir p ++ "/" ++ m) }))
  else []

/-- Verification followed by extraction, in the source's stage order. -/
def verifyThenExtract (args : Args) (md5 : String → String)
    (members : String → List String) : Except String (List ExtractAction) :=
  (verifyStage args md5).bind (fun _ => Except.ok (extractActions args members))

/-! ## ZAID patch stage (lines 156-166) -/

/-- The fixed table `fixes = [('bebeo.acer', '8016', '   0'), ('obeo.acer', '4009', '   0')]`. -/
def fixes : List (String × String × String) :=
  [("bebeo.acer", "8016", "   0"), ("obeo.acer", "4009", "   0")]

/-- One entry of the patch loop: read `ace_files_dir / table`, apply
`text.replace(old, new, 1)`, write the result back to the same file.
A missing file is an uncaught `FileNotFoundError`. -/
def applyFix (fs : FS) (fix : String × String × String) : Except String FS :=
  match fsRead fs (aceFilesDir ++ "/" ++ fix.1) with
  | none => Except.error "FileNotFoundError"
  | some text =>
    Except.ok (fsWrite fs (aceFilesDir ++ "/" ++ fix.1)
      (strReplaceFirst text fix.2.1 fix.2.2))

/-- The patch stage, guarded by `if 'neutron' in args.particles:`. -/
def patchStage (args : Args) (fs : FS) : Except String FS :=
  if Particle.neutron ∈ args.particles then
    fixes.foldlM applyFix fs
  else
    Except.ok fs

/-! ## Conversion and index stages (lines 172-209) -/

/-- A parsed nuclear-data record as returned by the `openmc.data`
collaborators: it exposes a derived `name` and an opaque payload. -/
structure Record where
  name : String
  content : String
deriving DecidableEq

/-- The external collaborators and glob results the conversion stage
consumes: `IncidentNeutron.from_ace`, `ThermalScattering.from_ace`,
`IncidentPhoton.from_endf`, the HDF5 serialization, and the four glob
results from the configuration table. -/
structure ConvertEnv where
  parseAce : String → Record
  parseSab : String → Record
  parsePhoton : String → String → Record
  hdf5 : Record → String
  aceFiles : List String
  sabFiles : List String
  photoFiles : List String
  atomFiles : List String

/-- Conversion state: the destination tree plus the `DataLibrary`
accumulator (registered paths, in registration order). -/
structure ConvertState where
  outFS : FS
  library : List String
deriving DecidableEq

/-- `args.destination.joinpath(particle, data.name + '.h5')`. -/
def exportPath (dest particle : String) (r : Record) : String :=
  dest ++ "/" ++ particle ++ "/" ++ r.name ++ ".h5"

/-- Lines 187-191 / 201-205: export one record with
`export_to_hdf5(h5_file, 'w', ...)` (overwriting mode) and immediately
register the produced path with the library. -/
def exportRecord (dest particle : String) (hdf5 : Record → String)
    (r : Record) (st : ConvertState) : ConvertState where
  outFS := fsWrite st.outFS (exportPath dest particle r) (hdf5 r)
  library := st.library ++ [exportPath dest particle r]

/-- Neutron branch (lines 180-191): `IncidentNeutron` over the sorted ACE
files, then `ThermalScattering` over the sorted S(a,b) files. -/
def convertNeutron (dest : String) (env : ConvertEnv) (st : ConvertState) :
    ConvertState :=
  ((sortStrings env.sabFiles).foldl
    (fun st path => exportRecord dest "neutron" env.hdf5 (env.parseSab path) st)
    ((sortStrings env.aceFiles).foldl
      (fun st path => exportRecord dest "neutron" env.hdf5 (env.parseAce path) st)
      st))

/-- `zip(sorted(details['photo_files']), sorted(details['atom_files']))`. -/
def photonPairs (photo atom : List String) : List (String × String) :=
  (sortStrings photo).zip (sortStrings atom)

/-- Photon branch (lines 193-205): fold over the zipped, sorted pairs. -/
def convertPhoton (dest : String) (env : ConvertEnv) (st : ConvertState) :
    ConvertState :=
  (photonPairs env.photoFiles env.atomFiles).foldl
    (fun st pr => exportRecord dest "photon" env.hdf5 (env.parsePhoton pr.1 pr.2) st)
    st

/-- The whole conversion stage (lines 176-205), starting from the fresh
`DataLibrary()` and an empty destination tree. -/
def convertStage (args : Args) (env : ConvertEnv) : ConvertState :=
  args.particles.foldl
    (fun st p =>
      match p with
      | Particle.neutron => convertNeutron args.destination env st
      | Particle.photon => convertPhoton args.destination env st)
    { outFS := [], library := [] }

/-- The records the neutron branch converts, in conversion order. -/
def neutronPlan (env : ConvertEnv) : List Record :=
  (sortStrings env.aceFiles).map env.parseAce
    ++ (sortStrings env.sabFiles).map env.parseSab

/-- The records the photon branch converts, in conversion order. -/
def photonPlan (env : ConvertEnv) : List Record :=
  (photonPairs env.photoFiles env.atomFiles).map
    (fun pr => env.parsePhoton pr.1 pr.2)

/-- All artifact paths the conversion stage produces, in production
order. -/
def producedPaths (args : Args) (env : ConvertEnv) : List String :=
  args.particles.flatMap (fun p =>
    match p with
    | Particle.neutron =>
      (neutronPlan env).map (exportPath args.destination "neutron")
    | Particle.photon =>
      (photonPlan env).map (exportPath args.destination "photon"))

/-- `args.destination / 'cross_sections.xml'`. -/
def crossSectionsPath (dest : String) : String := dest ++ "/" ++ "cross_sections.xml"

/-- Line 209: `library.export_to_xml(args.destination / 'cross_sections.xml')`
— one serialization of the accumulated manifest, at the destination
root.  `xml` is the black-box `DataLibrary` serialization. -/
def writeIndex (dest : String) (xml : List String → String) (st : ConvertState) : FS :=
  fsWrite st.outFS (crossSectionsPath dest) (xml st.library)

/-- Conversion followed by the single manifest serialization. -/
def runConversionAndIndex (args : Args) (env : ConvertEnv)
    (xml : List String → String) : FS :=
  writeIndex args.destination xml (convertStage args env)

/-! ## Concrete instances used by the closed theorems and witnesses -/

/-- A download-enabled neutron run (the argparse defaults restricted to
`-p neutron`). -/
def argsC1 : Args where
  destination := "nndc-b7.1-hdf5"
  download := true
  extract := true
  libver := "earliest"
  particles := [Particle.neutron]

/-- A digest oracle under which every archive hashes to a value different
from every checksum declared in the release table. -/
def md5C1 : String → String := fun _ => "00000000000000000000000000000000"

/-- A run with downloading disabled (`--no-download`). -/
def argsC9 : Args where
  destination := "nndc-b7.1-hdf5"
  download := false
  extract := true
  libver := "earliest"
  particles := [Particle.neutron, Particle.photon]

/-- A run whose particle selection excludes neutron. -/
def argsC10 : Args where
  destination := "nndc-b7.1-hdf5"
  download := true
  extract := true
  libver := "earliest"
  particles := [Particle.photon]

/-- A filesystem holding the two patchable S(a,b) files. -/
def fsC10 : FS :=
  [("nndc-b7.1-ace/bebeo.acer", "zaid 8016 data"),
   ("nndc-b7.1-ace/obeo.acer", "zaid 4009 data")]

/-- A photon-only run for the extraction witness. -/
def argsC4 : Args where
  destination := "nndc-b7.1-hdf5"
  download := true
  extract := true
  libver := "earliest"
  particles := [Particle.photon]

/-- Archive members for the extraction witness. -/
def membersC4 : String → List String := fun _ => ["photoat/photoat-001.endf"]

/-- The extraction the stage performs on the first photon archive. -/
def actC4 : ExtractAction where
  particle := Particle.photon
  archive := "ENDF-B-VII.1-photoat.zip"
  method := ExtractMethod.zip
  dir := endfFilesDir
  outputs := ["nndc-b7.1-endf/photoat/photoat-001.endf"]

/-- A photon environment whose photoatomic list has two files but whose
atomic-relaxation list has only one. -/
def envC2 : ConvertEnv where
  parseAce := fun _ => { name := "", content := "" }
  parseSab := fun _ => { name := "", content := "" }
  parsePhoton := fun p q => { name := p ++ "+" ++ q, content := "" }
  hdf5 := fun r => r.content
  aceFiles := []
  sabFiles := []
  photoFiles := ["photoat-001.endf", "photoat-002.endf"]
  atomFiles := ["atom-001.endf"]

/-- The first fix-table entry. -/
def fixW : String × String × String := ("bebeo.acer", "8016", "   0")

/-- A filesystem in which `bebeo.acer` contains the old substring twice. -/
def fsC3 : FS := [("nndc-b7.1-ace/bebeo.acer", "be 8016 x 8016 y")]

/-- A photon environment with two files on each side, deliberately listed
out of order. -/
def envC5 : ConvertEnv where
  parseAce := fun _ => { name := "", content := "" }
  parseSab := fun _ => { name := "", content := "" }
  parsePhoton := fun p q => { name := p ++ "+" ++ q, content := "" }
  hdf5 := fun r => r.content
  aceFiles := []
  sabFiles := []
  photoFiles := ["pb.endf", "pa.endf"]
  atomFiles := ["ab.endf", "aa.endf"]

/-- A full run selection for the determinism witness. -/
def argsC8 : Args where
  destination := "lib"
  download := false
  extract := false
  libver := "latest"
  particles := [Particle.neutron, Particle.photon]

/-- First conversion run: one choice of parser payloads and HDF5
serialization. -/
def envC8a : ConvertEnv where
  parseAce := fun p => { name := p, content := "first run ace" }
  parseSab := fun p => { name := p ++ "-sab", content := "first run sab" }
  parsePhoton := fun p q => { name := p ++ "+" ++ q, content := "first run photon" }
  hdf5 := fun r => "payload-v1:" ++ r.content
  aceFiles := ["u235.ace", "h1.ace"]
  sabFiles := ["hh2o.acer"]
  photoFiles := ["p.endf"]
  atomFiles := ["a.endf"]

/-- Second conversion run: identical input lists and derived names, but
different record payloads and a different HDF5 serialization. -/
def envC8b : ConvertEnv where
  parseAce := fun p => { name := p, content := "second run ace" }
  parseSab := fun p => { name := p ++ "-sab", content := "second run sab" }
  parsePhoton := fun p q => { name := p ++ "+" ++ q, content := "second run photon" }
  hdf5 := fun r => "payload-v2:" ++ r.content
  aceFiles := ["u235.ace", "h1.ace"]
  sabFiles := ["hh2o.acer"]
  photoFiles := ["p.endf"]
  atomFiles := ["a.endf"]

/-! ## Helper lemmas -/

theorem lexLe_total (x y : List Char) : lexLe x y = true ∨ lexLe y x = true := by
  induction x generalizing y with
  | nil => left; rfl
  | cons a as ih =>
    cases y with
    | nil => right; rfl
    | cons b bs =>
      rcases Nat.lt_trichotomy a.toNat b.toNat with h | h | h
      · left; simp [lexLe, h]
      · rcases ih bs with h2 | h2
        · left; simp [lexLe, h, h2]
        · right; simp [lexLe, h, h2]
      · right; simp [lexLe, h]

theorem lexLe_trans (x y z : List Char) (h1 : lexLe x y = true)
    (h2 : lexLe y z = true) : lexLe x z = true := by
  induction x generalizing y z with
  | nil => rfl
  | cons a as ih =>
    cases y with
    | nil => simp [lexLe] at h1
    | cons b bs =>
      cases z with
      | nil => simp [lexLe] at h2
      | cons c cs =>
        simp only [lexLe] at h1 h2 ⊢
        split at h1
        · rename_i hab
          split at h2
          · rename_i hbc; simp [Nat.lt_trans hab hbc]
          · split at h2
            · exact absurd h2 (by simp)
            · rename_i hbc1 hbc2
              have hbc : b.toNat = c.toNat := by omega
              simp [hbc ▸ hab]
        · split at h1
          · exact absurd h1 (by simp)
          · rename_i hab1 hab2
            have hab : a.toNat = b.toNat := by omega
            split at h2
            · rename_i hbc; simp [hab ▸ hbc]
            · split at h2
              · exact absurd h2 (by simp)
              · rename_i hbc1 hbc2
                have hac : a.toNat = c.toNat := by omega
                simp [hac, ih bs cs h1 h2]

theorem strLe_total (a b : String) : strLe a b = true ∨ strLe b a = true :=
  lexLe_total a.toList b.toList

theorem strLe_trans (a b c : String) (h1 : strLe a b = true)
    (h2 : strLe b c = true) : strLe a c = true :=
  lexLe_trans a.toList b.toList c.toList h1 h2

theorem mem_insertSorted {x s : String} :
    ∀ {l : List String}, x ∈ insertSorted s l → x = s ∨ x ∈ l := by
  intro l
  induction l with
  | nil =>
    intro h
    simp only [insertSorted, List.mem_singleton] at h
    exact Or.inl h
  | cons t ts ih =>
    intro h
    simp only [insertSorted] at h
    split at h
    · rcases List.mem_cons.mp h with h1 | h1
      · exact Or.inl h1
      · exact Or.inr h1
    · rcases List.mem_cons.mp h with h1 | h1
      · exact Or.inr (h1 ▸ List.mem_cons_self t ts)
      · rcases ih h1 with h2 | h2
        · exact Or.inl h2
        · exact Or.inr (List.mem_cons_of_mem t h2)

theorem pairwise_insertSorted (s : String) :
    ∀ {l : List String}, l.Pairwise (fun a b => strLe a b = true) →
      (insertSorted s l).Pairwise (fun a b => strLe a b = true) := by
  intro l
  induction l with
  | nil => intro _; simp [insertSorted]
  | cons t ts ih =>
    intro hp
    rcases List.pairwise_cons.mp hp with ⟨ht, hts⟩
    simp only [insertSorted]
    split
    · rename_i hst
      refine List.pairwise_cons.mpr ⟨?_, hp⟩
      intro x hx
      rcases List.mem_cons.mp hx with h1 | h1
      · exact h1 ▸ hst
      · exact strLe_trans s t x hst (ht x h1)
    · rename_i hst
      refine List.pairwise_cons.mpr ⟨?_, ih hts⟩
      intro x hx
      rcases mem_insertSorted hx with h1 | h1
      · show strLe t x = true
        rw [h1]
        rcases strLe_total s t with h2 | h2
        · exact absurd h2 hst
        · exact h2
      · exact ht x h1

theorem sortStrings_sorted :
    ∀ (l : List String), (sortStrings l).Pairwise (fun a b => strLe a b = true) := by
  intro l
  induction l with
  | nil => simp [sortStrings]
  | cons s ss ih => exact pairwise_insertSorted s ih

theorem getElem?_zip_pair {α β : Type} :
    ∀ (l₁ : List α) (l₂ : List β) (i : Nat) (a : α) (b : β),
      (l₁.zip l₂)[i]? = some (a, b) → l₁[i]? = some a ∧ l₂[i]? = some b := by
  intro l₁
  induction l₁ with
  | nil => intro l₂ i a b h; simp [List.zip] at h
  | cons x xs ih =>
    intro l₂ i a b h
    cases l₂ with
    | nil => simp [List.zip] at h
    | cons y ys =>
      cases i with
      | zero =>
        simp only [List.zip_cons_cons, List.getElem?_cons_zero,
          Option.some.injEq, Prod.mk.injEq] at h
        simp [h.1, h.2]
      | succ n =>
        simp only [List.zip_cons_cons, List.getElem?_cons_succ] at h ⊢
        exact ih ys n a b h

theorem fsRead_fsWrite_self (fs : FS) (p v : String) :
    fsRead (fsWrite fs p v) p = some v := by
  simp [fsRead, fsWrite]

theorem isPrefixOf_self_append : ∀ (l t : List Char), l.isPrefixOf (l ++ t) = true
  | [], _ => by simp [List.isPrefixOf]
  | c :: cs, t => by
    simp only [List.cons_append, List.isPrefixOf, beq_self_eq_true, Bool.true_and]
    exact isPrefixOf_self_append cs t

theorem listReplaceFirst_split (old new : List Char) :
    ∀ (pre suf : List Char),
      (∀ i, i < pre.length → old.isPrefixOf ((pre ++ old ++ suf).drop i) = false) →
      listReplaceFirst old new (pre ++ old ++ suf) = pre ++ new ++ suf := by
  intro pre
  induction pre with
  | nil =>
    intro suf _h
    simp only [List.nil_append]
    match old with
    | [] =>
      match suf with
      | [] => simp [listReplaceFirst]
      | c :: cs => simp [listReplaceFirst, List.isPrefixOf]
    | o :: os =>
      have hpre := isPrefixOf_self_append (o :: os) suf
      simp only [List.cons_append] at hpre ⊢
      simp only [listReplaceFirst, hpre, if_true]
      simp [List.drop_left]
  | cons p ps ih =>
    intro suf hfirst
    have h0 : old.isPrefixOf (p :: (ps ++ old ++ suf)) = false := by
      have := hfirst 0 (by simp)
      simpa using this
    simp only [List.cons_append, List.append_assoc] at h0 ⊢
    simp only [listReplaceFirst, h0, if_false, Bool.false_eq_true]
    have hrest : ∀ i, i < ps.length →
        old.isPrefixOf ((ps ++ old ++ suf).drop i) = false := by
      intro i hi
      have := hfirst (i + 1) (by simp; omega)
      simpa [List.append_assoc] using this
    have := ih suf hrest
    simp only [List.append_assoc] at this
    rw [this]

theorem foldl_exportRecord_library {α : Type} (dest particle : String)
    (hdf5 : Record → String) (f : α → Record) :
    ∀ (xs : List α) (st : ConvertState),
      (xs.foldl (fun st x => exportRecord dest particle hdf5 (f x) st) st).library
        = st.library ++ xs.map (fun x => exportPath dest particle (f x)) := by
  intro xs
  induction xs with
  | nil => intro st; simp
  | cons x xs ih =>
    intro st
    simp only [List.foldl_cons, List.map_cons]
    rw [ih]
    simp [exportRecord, List.append_assoc]

theorem convertNeutron_library (dest : String) (env : ConvertEnv) (st : ConvertState) :
    (convertNeutron dest env st).library
      = st.library ++ (neutronPlan env).map (exportPath dest "neutron") := by
  simp only [convertNeutron, neutronPlan]
  rw [foldl_exportRecord_library dest "neutron" env.hdf5 env.parseSab,
    foldl_exportRecord_library dest "neutron" env.hdf5 env.parseAce]
  simp [List.map_map, Function.comp_def, List.append_assoc]

theorem convertPhoton_library (dest : String) (env : ConvertEnv) (st : ConvertState) :
    (convertPhoton dest env st).library
      = st.library ++ (photonPlan env).map (exportPath dest "photon") := by
  simp only [convertPhoton, photonPlan]
  rw [foldl_exportRecord_library dest "photon" env.hdf5
    (fun pr : String × String => env.parsePhoton pr.1 pr.2)]
  simp [List.map_map, Function.comp_def]

theorem particlesFold_library (dest : String) (env : ConvertEnv) :
    ∀ (ps : List Particle) (st : ConvertState),
      (ps.foldl (fun st p =>
          match p with
          | Particle.neutron => convertNeutron dest env st
          | Particle.photon => convertPhoton dest env st) st).library
        = st.library ++ ps.flatMap (fun p =>
            match p with
            | Particle.neutron => (neutronPlan env).map (exportPath dest "neutron")
            | Particle.photon => (photonPlan env).map (exportPath dest "photon")) := by
  intro ps
  induction ps with
  | nil => intro st; simp
  | cons p ps ih =>
    intro st
    cases p
    · simp only [List.foldl_cons, List.flatMap_cons]
      rw [ih, convertNeutron_library]
      simp [List.append_assoc]
    · simp only [List.foldl_cons, List.flatMap_cons]
      rw [ih, convertPhoton_library]
      simp [List.append_assoc]

theorem convertStage_library (args : Args) (env : ConvertEnv) :
    (convertStage args env).library = producedPaths args env := by
  simp only [convertStage, producedPaths]
  rw [particlesFold_library]
  simp

theorem length_insertSorted (s : String) :
    ∀ (l : List String), (insertSorted s l).length = l.length + 1 := by
  intro l
  induction l with
  | nil => rfl
  | cons t ts ih =>
    simp only [insertSorted]
    split
    · simp
    · simp only [List.length_cons, ih]

theorem length_sortStrings :
    ∀ (l : List String), (sortStrings l).length = l.length := by
  intro l
  induction l with
  | nil => rfl
  | cons s ss ih => simp [sortStrings, length_insertSorted, ih]

theorem map_congr_mem {α β : Type} (f g : α → β) :
    ∀ (l : List α), (∀ a ∈ l, f a = g a) → l.map f = l.map g := by
  intro l
  induction l with
  | nil => intro _; rfl
  | cons x xs ih =>
    intro h
    simp only [List.map_cons, h x (List.mem_cons_self x xs),
      ih (fun a ha => h a (List.mem_cons_of_mem x ha))]

/-! ## Claim theorems -/

/-- Claim C1 (code bug).  The release table declares checksums for the
neutron archives and the run's digest of the first archive differs from
the declared value, yet the verification stage performs no digest
comparison at all (the comparison trace is empty), raises nothing, and
the run proceeds to extraction.  The guard at line 121 of the source
tests `'checksums' in release_details[release].keys()`, and the top-level
keys are only `'neutron'` and `'photon'`, so the verification body is
unreachable; the claim says such a run must abort fatally before
extraction. -/
theorem c1_md5_verification_is_dead_code :
    neutronDetails.checksums = some ["9729a17eb62b75f285d8a7628ace1449",
      "e17d827c92940a30f22f096d910ea186"] ∧
    md5C1 "ENDF-B-VII.1-neutron-293.6K.tar.gz" ≠ "9729a17eb62b75f285d8a7628ace1449" ∧
    "checksums" ∉ releaseKeys ∧
    argsC1.download = true ∧
    verifyStage argsC1 md5C1 = Except.ok [] ∧
    verifyThenExtract argsC1 md5C1 (fun _ => ["member.ace"])
      = Except.ok (extractActions argsC1 (fun _ => ["member.ace"])) := by
  refine ⟨rfl, by decide, by decide, rfl, rfl, rfl⟩

/-- Claim C9.  Checksum verification is gated on the download flag: in a
run with downloading disabled, the verification stage computes and
compares no digest of any archive (its comparison trace is empty), and
the run proceeds directly to the extraction stage. -/
theorem c9_no_download_skips_verification (args : Args) (md5 : String → String)
    (members : String → List String) (h : args.download = false) :
    verifyStage args md5 = Except.ok [] ∧
    verifyThenExtract args md5 members = Except.ok (extractActions args members) := by
  have h1 : verifyStage args md5 = Except.ok [] := by
    simp [verifyStage, h]
  refine ⟨h1, ?_⟩
  unfold verifyThenExtract
  rw [h1]
  rfl

/-- Witness for C9 at a concrete `--no-download` run. -/
theorem c9_witness :
    argsC9.download = false ∧
    (verifyStage argsC9 md5C1 = Except.ok [] ∧
     verifyThenExtract argsC9 md5C1 (fun _ => [])
       = Except.ok (extractActions argsC9 (fun _ => []))) :=
  ⟨rfl, c9_no_download_skips_verification argsC9 md5C1 (fun _ => []) rfl⟩

/-- Claim C10.  The patch stage is gated on neutron being selected: when
it is not, the stage returns the filesystem unchanged — in particular the
two files named by the fix table (`bebeo.acer` and `obeo.acer`, as the
second conjunct records) are neither opened nor rewritten. -/
theorem c10_patcher_skipped_without_neutron (args : Args) (fs : FS)
    (h : Particle.neutron ∉ args.particles) :
    patchStage args fs = Except.ok fs ∧
    fixes.map (fun fix => fix.1) = ["bebeo.acer", "obeo.acer"] := by
  constructor
  · simp [patchStage, h]
  · rfl

/-- Witness for C10 at a photon-only run over a filesystem holding both
patchable files. -/
theorem c10_witness :
    Particle.neutron ∉ argsC10.particles ∧
    (patchStage argsC10 fsC10 = Except.ok fsC10 ∧
     fixes.map (fun fix => fix.1) = ["bebeo.acer", "obeo.acer"]) :=
  ⟨by decide, c10_patcher_skipped_without_neutron argsC10 fsC10 (by decide)⟩

/-- Claim C2 is false on the code (counterexample).  With a photoatomic
list of two files and an atomic-relaxation list of one, the photon
conversion does not raise: `zip` silently truncates the pairing, the
loop completes normally, and exactly one (partial) pairing is processed
and exported.  `convertPhoton` is total because the source's pairing has
no failure path. -/
theorem c2_counterexample_zip_truncates :
    envC2.photoFiles.length ≠ envC2.atomFiles.length ∧
    convertPhoton "dest" envC2 { outFS := [], library := [] } =
      { outFS := [("dest/photon/photoat-001.endf+atom-001.endf.h5", "")]
        library := ["dest/photon/photoat-001.endf+atom-001.endf.h5"] } := by
  constructor
  · decide
  · rfl

/-- Claim C2 as amended.  When the sorted photoatomic and
atomic-relaxation lists differ in length the photon conversion does not
raise; `zip` truncates the pairing to the shorter list, so exactly
`min` (number of photoatomic files) (number of atomic-relaxation files)
pairs are converted and registered and the extra files are silently
ignored. -/
theorem c2_photon_pairing_truncates_to_min (dest : String) (env : ConvertEnv)
    (st : ConvertState) :
    (photonPairs env.photoFiles env.atomFiles).length
      = min env.photoFiles.length env.atomFiles.length ∧
    (convertPhoton dest env st).library.length
      = st.library.length + min env.photoFiles.length env.atomFiles.length := by
  constructor
  · simp [photonPairs, List.length_zip, length_sortStrings]
  · rw [convertPhoton_library]
    simp [photonPlan, photonPairs, List.length_zip, length_sortStrings]

/-- Claim C3.  For each entry of the fix table, the patch step reads the
named file's full text, replaces exactly the first occurrence of the old
substring by the new one, and writes the result back to the same file;
the text left of the first occurrence and the whole remainder — hence
every later occurrence of the same substring — are copied verbatim.  The
hypotheses present the file's text split around the leftmost occurrence
of the old substring. -/
theorem c3_patcher_replaces_first_occurrence
    (fix : String × String × String) (hfix : fix ∈ fixes)
    (fs : FS) (pre suf : List Char)
    (hread : fsRead fs (aceFilesDir ++ "/" ++ fix.1)
      = some (String.mk (pre ++ fix.2.1.toList ++ suf)))
    (hfirst : ∀ i, i < pre.length →
      fix.2.1.toList.isPrefixOf ((pre ++ fix.2.1.toList ++ suf).drop i) = false) :
    applyFix fs fix = Except.ok
      (fsWrite fs (aceFilesDir ++ "/" ++ fix.1)
        (String.mk (pre ++ fix.2.2.toList ++ suf))) := by
  have hrepl : strReplaceFirst (String.mk (pre ++ fix.2.1.toList ++ suf)) fix.2.1 fix.2.2
      = String.mk (pre ++ fix.2.2.toList ++ suf) := by
    unfold strReplaceFirst
    exact congrArg String.mk
      (listReplaceFirst_split fix.2.1.toList fix.2.2.toList pre suf hfirst)
  simp only [applyFix, hread, hrepl]

/-- Witness for C3 on the first fix-table entry, over a file containing
the old substring twice: the first occurrence is replaced, the second is
untouched. -/
theorem c3_witness :
    fixW ∈ fixes ∧
    fsRead fsC3 (aceFilesDir ++ "/" ++ fixW.1)
      = some (String.mk ("be ".toList ++ fixW.2.1.toList ++ " x 8016 y".toList)) ∧
    (∀ i, i < "be ".toList.length →
      fixW.2.1.toList.isPrefixOf
        (("be ".toList ++ fixW.2.1.toList ++ " x 8016 y".toList).drop i) = false) ∧
    applyFix fsC3 fixW = Except.ok
      (fsWrite fsC3 (aceFilesDir ++ "/" ++ fixW.1)
        (String.mk ("be ".toList ++ fixW.2.2.toList ++ " x 8016 y".toList))) :=
  ⟨by decide, by decide, by decide,
    c3_patcher_replaces_first_occurrence fixW (by decide) fsC3
      "be ".toList " x 8016 y".toList (by decide) (by decide)⟩

/-- Claim C4.  Every extraction the stage performs dispatches purely on
the archive's file name: a name ending in `.zip` goes to the zip routine
and any other name to the tar routine; and all members are extracted,
with their internal paths preserved, under the target directory selected
by the particle's declared file type. -/
theorem c4_extraction_dispatch_by_extension (args : Args)
    (members : String → List String) (act : ExtractAction)
    (h : act ∈ extractActions args members) :
    act.method = (if strEndsWith act.archive ".zip"
      then ExtractMethod.zip else ExtractMethod.targz) ∧
    act.dir = extractionDir act.particle ∧
    act.outputs = (members act.archive).map
      (fun m => extractionDir act.particle ++ "/" ++ m) := by
  unfold extractActions at h
  split at h
  · rcases List.mem_flatMap.mp h with ⟨p, hp, hact⟩
    rcases List.mem_map.mp hact with ⟨f, hf, rfl⟩
    exact ⟨rfl, rfl, rfl⟩
  · simp at h

/-- Witness for C4 on the first photon archive of the release table. -/
theorem c4_witness :
    actC4 ∈ extractActions argsC4 membersC4 ∧
    (actC4.method = (if strEndsWith actC4.archive ".zip"
        then ExtractMethod.zip else ExtractMethod.targz) ∧
     actC4.dir = extractionDir actC4.particle ∧
     actC4.outputs = (membersC4 actC4.archive).map
       (fun m => extractionDir actC4.particle ++ "/" ++ m)) :=
  ⟨by decide, c4_extraction_dispatch_by_extension argsC4 membersC4 actC4 (by decide)⟩

/-- Claim C5.  The photon stage sorts both glob results lexicographically
(the two `Pairwise` conjuncts), pairs them positionally — whenever the
zipped list has the pair `(a, b)` at index `i`, then `a` is the `i`-th
sorted photoatomic file and `b` the `i`-th sorted atomic-relaxation file
— and exports exactly one artifact per pair, in pair order. -/
theorem c5_photon_positional_pairing (dest : String) (env : ConvertEnv)
    (st : ConvertState) (i : Nat) (a b : String)
    (h : (photonPairs env.photoFiles env.atomFiles)[i]? = some (a, b)) :
    (sortStrings env.photoFiles)[i]? = some a ∧
    (sortStrings env.atomFiles)[i]? = some b ∧
    (sortStrings env.photoFiles).Pairwise (fun x y => strLe x y = true) ∧
    (sortStrings env.atomFiles).Pairwise (fun x y => strLe x y = true) ∧
    (convertPhoton dest env st).library
      = st.library ++ (photonPairs env.photoFiles env.atomFiles).map
          (fun pr => exportPath dest "photon" (env.parsePhoton pr.1 pr.2)) := by
  have hz := getElem?_zip_pair (sortStrings env.photoFiles)
    (sortStrings env.atomFiles) i a b h
  refine ⟨hz.1, hz.2, sortStrings_sorted _, sortStrings_sorted _, ?_⟩
  rw [convertPhoton_library]
  simp [photonPlan, List.map_map, Function.comp_def]

/-- Witness for C5 at index 1 of a concrete out-of-order environment. -/
theorem c5_witness :
    (photonPairs envC5.photoFiles envC5.atomFiles)[1]? = some ("pb.endf", "ab.endf") ∧
    ((sortStrings envC5.photoFiles)[1]? = some "pb.endf" ∧
     (sortStrings envC5.atomFiles)[1]? = some "ab.endf" ∧
     (sortStrings envC5.photoFiles).Pairwise (fun x y => strLe x y = true) ∧
     (sortStrings envC5.atomFiles).Pairwise (fun x y => strLe x y = true) ∧
     (convertPhoton "dest" envC5 { outFS := [], library := [] }).library
       = ([] : List String) ++ (photonPairs envC5.photoFiles envC5.atomFiles).map
           (fun pr => exportPath "dest" "photon" (envC5.parsePhoton pr.1 pr.2))) :=
  ⟨by decide,
    c5_photon_positional_pairing "dest" envC5 { outFS := [], library := [] }
      1 "pb.endf" "ab.endf" (by decide)⟩

/-- Claim C6.  Each record export targets the path
`<destination>/<particle>/<derived-name>.h5`, registers exactly that
path, and uses write mode: whatever the destination tree held at that
path before (`st` is arbitrary), afterwards the file holds the new
export. -/
theorem c6_export_path_and_overwrite (dest particle : String)
    (hdf5 : Record → String) (r : Record) (st : ConvertState) :
    exportPath dest particle r = dest ++ "/" ++ particle ++ "/" ++ r.name ++ ".h5" ∧
    (exportRecord dest particle hdf5 r st).library
      = st.library ++ [exportPath dest particle r] ∧
    fsRead (exportRecord dest particle hdf5 r st).outFS (exportPath dest particle r)
      = some (hdf5 r) := by
  refine ⟨rfl, rfl, ?_⟩
  exact fsRead_fsWrite_self st.outFS _ _

/-- Claim C7.  The library accumulator registers exactly the artifact
paths the conversion stage produces, in production order (each export
registers its path immediately, so the manifest list equals the
production plan), and the manifest is serialized exactly once, to
`cross_sections.xml` at the destination root, where it reflects exactly
that list. -/
theorem c7_manifest_registers_exactly_produced (args : Args) (env : ConvertEnv)
    (xml : List String → String) :
    (convertStage args env).library = producedPaths args env ∧
    runConversionAndIndex args env xml
      = fsWrite (convertStage args env).outFS
          (args.destination ++ "/" ++ "cross_sections.xml")
          (xml (producedPaths args env)) ∧
    fsRead (runConversionAndIndex args env xml) (crossSectionsPath args.destination)
      = some (xml (producedPaths args env)) := by
  have h := convertStage_library args env
  refine ⟨h, ?_, ?_⟩
  · simp [runConversionAndIndex, writeIndex, crossSectionsPath, h]
  · simp [runConversionAndIndex, writeIndex, h, fsRead_fsWrite_self]

/-- Claim C8.  Artifact file names are a deterministic function of the
input file lists and of the parsed records' derived names alone: two
conversion runs whose extracted inputs coincide and whose parsers derive
the same names (in particular two runs of the same deterministic
collaborator on identical inputs) produce identical artifact path lists,
even if every other aspect of the records and of the HDF5 payloads
differs. -/
theorem c8_artifact_names_deterministic (args : Args) (env1 env2 : ConvertEnv)
    (hace : env1.aceFiles = env2.aceFiles)
    (hsab : env1.sabFiles = env2.sabFiles)
    (hphoto : env1.photoFiles = env2.photoFiles)
    (hatom : env1.atomFiles = env2.atomFiles)
    (hA : ∀ p, (env1.parseAce p).name = (env2.parseAce p).name)
    (hS : ∀ p, (env1.parseSab p).name = (env2.parseSab p).name)
    (hP : ∀ p q, (env1.parsePhoton p q).name = (env2.parsePhoton p q).name) :
    producedPaths args env1 = producedPaths args env2 := by
  have hplanN : (neutronPlan env1).map (exportPath args.destination "neutron")
      = (neutronPlan env2).map (exportPath args.destination "neutron") := by
    unfold neutronPlan
    rw [hace, hsab]
    simp only [List.map_append, List.map_map]
    congr 1
    · apply map_congr_mem
      intro x _
      simp [Function.comp_def, exportPath, hA x]
    · apply map_congr_mem
      intro x _
      simp [Function.comp_def, exportPath, hS x]
  have hplanP : (photonPlan env1).map (exportPath args.destination "photon")
      = (photonPlan env2).map (exportPath args.destination "photon") := by
    unfold photonPlan photonPairs
    rw [hphoto, hatom]
    simp only [List.map_map]
    apply map_congr_mem
    intro pr _
    simp [Function.comp_def, exportPath, hP pr.1 pr.2]
  unfold producedPaths
  refine congrArg (fun f => args.particles.flatMap f) (funext ?_)
  intro p
  cases p
  · exact hplanN
  · exact hplanP

/-- Witness for C8: two concrete runs with identical inputs and derived
names but different payloads and HDF5 serializations give the same
artifact paths. -/
theorem c8_witness :
    envC8a.hdf5 { name := "n", content := "c" }
      ≠ envC8b.hdf5 { name := "n", content := "c" } ∧
    producedPaths argsC8 envC8a = producedPaths argsC8 envC8b :=
  ⟨by decide,
    c8_artifact_names_deterministic argsC8 envC8a envC8b rfl rfl rfl rfl
      (fun _ => rfl) (fun _ => rfl) (fun _ _ => rfl)⟩

end ConvertNNDC
